import Mathlib

/-!
# Verification of the Jaagruk blockchain ledger
  (src/backend/src/blockchain/BlockchainService.ts)

Shallow embedding of the `Blockchain` class and its block data model.

* The SHA-256-of-JSON digest `computeHash` of the source is modelled as an
  abstract function `H : HashInput → String` over the exact tuple
  `{index, timestamp, data, previousHash, nonce}` that the source serializes
  and hashes.  All theorems are parametric in `H`; where a claim needs the
  cryptographic fact that two different inputs have different digests, that
  fact is taken as an explicit hypothesis on the two inputs involved.
* The mutable `chain: Block[]` field becomes explicit state passing: each
  method takes the current chain (a `List Block`) and returns its result
  together with the new chain where it mutates.
-/

namespace Jaagruk

/-- `location` sub-record of `BlockData` (source interface `BlockData.location`). -/
structure Location where
  area : String
  address : String
  nearestStation : String
deriving DecidableEq, Repr

/-- `identity: 'name' | 'anonymous'` of the source `BlockData`. -/
inductive Identity where
  | name
  | anonymous
deriving DecidableEq, Repr

/-- `status: 'PENDING' | 'UNDER_REVIEW' | 'RESOLVED' | 'DISMISSED'` of the source. -/
inductive Status where
  | PENDING
  | UNDER_REVIEW
  | RESOLVED
  | DISMISSED
deriving DecidableEq, Repr

/-- Source interface `BlockData` (the payload sealed inside a block).
`citizenId?: string` is an optional field, modelled as `Option String`. -/
structure BlockData where
  reportId : String
  category : String
  urgency : String
  location : Location
  descriptionHash : String
  evidenceHashes : List String
  identity : Identity
  citizenId : Option String
  timestamp : Nat
  authorityRouted : List String
  status : Status
deriving DecidableEq, Repr

/-- Source interface `Block`. -/
structure Block where
  index : Nat
  timestamp : Nat
  data : BlockData
  previousHash : String
  hash : String
  nonce : Nat
deriving DecidableEq, Repr

/-- The tuple `{ index, timestamp, data, previousHash, nonce }` that
`computeHash` passes to `JSON.stringify` before hashing. -/
structure HashInput where
  index : Nat
  timestamp : Nat
  data : BlockData
  previousHash : String
  nonce : Nat
deriving DecidableEq, Repr

/-- Abstract digest: the composite `CryptoJS.SHA256(JSON.stringify ·).toString(hex)`
of the source, left abstract. -/
def Digest : Type := HashInput → String

/-- Source constant `MINING_DIFFICULTY = 2`. -/
def MINING_DIFFICULTY : Nat := 2

/-- Source constant `'0'.repeat(MINING_DIFFICULTY)` (named `DIFFICULTY_*` in the
source; renamed here). -/
def DIFFICULTY_ZEROS : String := String.mk (List.replicate MINING_DIFFICULTY '0')

/-- JavaScript `s.startsWith(p)`: `p` is a textual prefix of `s`. -/
def strStartsWith (s p : String) : Bool := p.data.isPrefixOf s.data

/-- Source method `computeHash(index, timestamp, data, previousHash, nonce)`. -/
def computeHash (H : Digest) (index timestamp : Nat) (data : BlockData)
    (previousHash : String) (nonce : Nat) : String :=
  H ⟨index, timestamp, data, previousHash, nonce⟩

/-- Fixed payload of the genesis block (source `createGenesisBlock`, local
`genesisData`).  `new Date('2024-01-01').getTime()` = 1704067200000. -/
def genesisTimestamp : Nat := 1704067200000

def genesisData : BlockData :=
  { reportId := "GENESIS"
    category := "SYSTEM"
    urgency := "NONE"
    location := { area := "India", address := "Origin", nearestStation := "N/A" }
    descriptionHash := "0000000000000000"
    evidenceHashes := []
    identity := .anonymous
    citizenId := none
    timestamp := genesisTimestamp
    authorityRouted := []
    status := .RESOLVED }

/-- Source method `createGenesisBlock()`. -/
def createGenesisBlock (H : Digest) : Block :=
  { index := 0
    timestamp := genesisTimestamp
    data := genesisData
    previousHash := "0000000000000000"
    hash := computeHash H 0 genesisTimestamp genesisData "0000000000000000" 0
    nonce := 0 }

/-- The constructor `new Blockchain()`: `this.chain = [this.createGenesisBlock()]`. -/
def initChain (H : Digest) : List Block := [createGenesisBlock H]

/-- Source method `getLatestBlock()`, i.e. `this.chain[this.chain.length - 1]`;
on an empty chain the JavaScript expression is `undefined`, modelled as `none`. -/
def getLatestBlock (ch : List Block) : Option Block := ch.getLast?

/-- Source method `getChain()`. -/
def getChain (ch : List Block) : List Block := ch

/-- Source method `getLength()`. -/
def getLength (ch : List Block) : Nat := ch.length

/-- Placeholder used to read `chain[i]` at indices that are in range wherever
the source reads them. -/
def dummyBlock : Block :=
  { index := 0, timestamp := 0, data := genesisData, previousHash := "", hash := "", nonce := 0 }

/-- One iteration of the `isChainValid` loop at position `i ≥ 1`:
check (a) `current.hash === recomputed hash`, then
check (b) `current.previousHash === previous.hash`. -/
def blockCheck (H : Digest) (ch : List Block) (i : Nat) : Bool :=
  let current := ch.getD i dummyBlock
  let previous := ch.getD (i - 1) dummyBlock
  (current.hash ==
      computeHash H current.index current.timestamp current.data current.previousHash
        current.nonce)
    && (current.previousHash == previous.hash)

/-- Source method `isChainValid()`: the `for (let i = 1; i < chain.length; i++)`
loop returns `false` on the first failing check, `true` if none fails. -/
def isChainValid (H : Digest) (ch : List Block) : Bool :=
  (List.range' 1 (ch.length - 1)).all (blockCheck H ch)

/-- Source method `loadChain(chain)`: install the candidate, validate, revert on
failure.  Returns the boolean result of the source together with the value of
`this.chain` after the call. -/
def loadChain (H : Digest) (s : List Block) (candidate : List Block) :
    Bool × List Block :=
  if isChainValid H candidate then (true, candidate) else (false, s)

/-! ## Mining

The source loop is

```
let nonce = 0; let hash = '';
while (!hash.startsWith(DIFFICULTY_*)) { nonce++; hash = this.computeHash(..., nonce); }
return { hash, nonce };
```

After the initialization the loop state at "nonce = n" carries
`hash = '' ` when `n = 0` (the hash variable has not been assigned yet) and
`hash = computeHash(..., n)` when `n ≥ 1`; the loop stops at the first `n`
whose carried hash starts with the difficulty string and returns that state.
`mineHashAt` is the carried hash, and `mineBlock` returns the state at the
least passing `n`, which exists by the hypothesis `h`. -/

/-- The value of the source loop's `hash` variable when its `nonce` variable is `n`. -/
def mineHashAt (H : Digest) (index timestamp : Nat) (data : BlockData)
    (previousHash : String) (n : Nat) : String :=
  if n = 0 then "" else computeHash H index timestamp data previousHash n

/-- The loop guard at state `n`: `hash.startsWith(DIFFICULTY_*)`. -/
def minePass (H : Digest) (index timestamp : Nat) (data : BlockData)
    (previousHash : String) (n : Nat) : Bool :=
  strStartsWith (mineHashAt H index timestamp data previousHash n) DIFFICULTY_ZEROS

/-- Source method `mineBlock(index, timestamp, data, previousHash)`, defined at
the inputs where the loop terminates (hypothesis `h`). -/
def mineBlock (H : Digest) (index timestamp : Nat) (data : BlockData)
    (previousHash : String)
    (h : ∃ n, minePass H index timestamp data previousHash n = true) :
    String × Nat :=
  (mineHashAt H index timestamp data previousHash (Nat.find h), Nat.find h)

/-- Mining termination at the inputs `addBlock` will hand to `mineBlock` from
state `ch`: the abbreviation used as `addBlock`'s hypothesis. -/
def MineTerm (H : Digest) (ch : List Block) (timestamp : Nat) (data : BlockData)
    (h1 : ch ≠ []) : Prop :=
  ∃ n, minePass H ((ch.getLast h1).index + 1) timestamp data (ch.getLast h1).hash n = true

/-- Source method `addBlock(data)`.  `timestamp` is the external `Date.now()`
input.  The chain must be nonempty (otherwise the source crashes reading
`previousBlock.index`), and mining must terminate (`h2`).  Returns the new
block (the source's return value) and the chain after the `push`. -/
def addBlock (H : Digest) (ch : List Block) (timestamp : Nat) (data : BlockData)
    (h1 : ch ≠ []) (h2 : MineTerm H ch timestamp data h1) : Block × List Block :=
  let previousBlock := ch.getLast h1
  let index := previousBlock.index + 1
  let previousHash := previousBlock.hash
  let mined := mineBlock H index timestamp data previousHash h2
  let newBlock : Block :=
    { index := index, timestamp := timestamp, data := data,
      previousHash := previousHash, hash := mined.1, nonce := mined.2 }
  (newBlock, ch ++ [newBlock])

/-- Chains reachable from `new Blockchain()` by `addBlock` calls alone. -/
inductive ReachAdd (H : Digest) : List Block → Prop where
  | init : ReachAdd H (initChain H)
  | step (ch : List Block) (timestamp : Nat) (data : BlockData) (h1 : ch ≠ [])
      (h2 : MineTerm H ch timestamp data h1) :
      ReachAdd H ch → ReachAdd H (addBlock H ch timestamp data h1 h2).2

/-- Chains reachable from `new Blockchain()` by `addBlock` calls and by
`loadChain` calls whose candidate argument is nonempty. -/
inductive ReachNE (H : Digest) : List Block → Prop where
  | init : ReachNE H (initChain H)
  | step (ch : List Block) (timestamp : Nat) (data : BlockData) (h1 : ch ≠ [])
      (h2 : MineTerm H ch timestamp data h1) :
      ReachNE H ch → ReachNE H (addBlock H ch timestamp data h1 h2).2
  | load (ch candidate : List Block) (hne : candidate ≠ []) :
      ReachNE H ch → ReachNE H (loadChain H ch candidate).2

/-! ## Concrete digest functions used to instantiate the parametric theorems -/

/-- Digest returning `"00"` on every input (every nonce passes the difficulty
check, and mining finds a hash on its first probe). -/
def constDigest : Digest := fun _ => "00"

/-- Digest projecting out the payload's `reportId`: two inputs whose payloads
have different report ids get different digests. -/
def ridDigest : Digest := fun inp => inp.data.reportId

/-- Mutating a block's `data` in place, leaving `hash`, `nonce` and all other
fields untouched (the tampering move of the tamper-detection property). -/
def setBlockData (b : Block) (d : BlockData) : Block :=
  { b with data := d }

/-! ## Concrete sample objects used by witnesses and counterexamples -/

/-- A generic named-report payload. -/
def samplePayload : BlockData :=
  { reportId := "R1"
    category := "Infrastructure"
    urgency := "Medium"
    location := { area := "Delhi", address := "MG Road", nearestStation := "Central" }
    descriptionHash := "abcd1234"
    evidenceHashes := ["ef56"]
    identity := .name
    citizenId := some "CIT-7"
    timestamp := 1700000000000
    authorityRouted := ["Municipal"]
    status := .PENDING }

/-- An anonymous payload that nevertheless carries a populated `citizenId`. -/
def anonPayload : BlockData :=
  { samplePayload with reportId := "R2", identity := .anonymous, citizenId := some "CIT-42" }

def dataA : BlockData := { samplePayload with reportId := "A" }

def dataB : BlockData := { samplePayload with reportId := "B" }

def dataC : BlockData := { samplePayload with reportId := "C" }

/-- First block of a two-block chain that is valid under `ridDigest`. -/
def blockA : Block :=
  { index := 0, timestamp := 0, data := dataA, previousHash := "", hash := "A", nonce := 0 }

/-- Second block: its stored hash `"A"`→`"B"` linkage matches `ridDigest`. -/
def blockB : Block :=
  { index := 1, timestamp := 0, data := dataB, previousHash := "A", hash := "B", nonce := 0 }

/-- Like `blockB` but with a corrupted stored `hash` field. -/
def blockBad : Block :=
  { blockB with hash := "X" }

/-- A lone block with arbitrary junk content: `index` 5, dangling
`previousHash`, stored `hash` unrelated to any digest. -/
def blockJunk : Block :=
  { index := 5, timestamp := 0, data := dataB, previousHash := "nowhere", hash := "junk",
    nonce := 9 }

/-- Payload used to tamper with the genesis block in counterexamples. -/
def tamperedGenesisData : BlockData :=
  { genesisData with reportId := "TAMPERED" }

end Jaagruk

namespace Jaagruk

/-! ## Helper lemmas -/

/-- The `isChainValid` loop succeeds iff every position `1 ≤ i < length` passes
its check. -/
lemma isChainValid_eq_true_iff (H : Digest) (ch : List Block) :
    isChainValid H ch = true ↔ ∀ i, 1 ≤ i → i < ch.length → blockCheck H ch i = true := by
  simp only [isChainValid, List.all_eq_true]
  constructor
  · intro h i h1 h2
    exact h i (List.mem_range'_1.mpr ⟨h1, by omega⟩)
  · intro h i hi
    obtain ⟨h1, h2⟩ := List.mem_range'_1.mp hi
    exact h i h1 (by omega)

/-- One failing check anywhere in range makes the whole chain invalid. -/
lemma isChainValid_eq_false_of (H : Digest) (ch : List Block) (i : Nat)
    (h1 : 1 ≤ i) (h2 : i < ch.length) (hc : blockCheck H ch i = false) :
    isChainValid H ch = false := by
  cases hb : isChainValid H ch with
  | false => rfl
  | true =>
    have := (isChainValid_eq_true_iff H ch).mp hb i h1 h2
    rw [hc] at this
    exact absurd this (by simp)

/-- In range, `blockCheck` is the conjunction of the hash recomputation check
and the linkage check, phrased with `getElem`. -/
lemma blockCheck_eq_true_iff (H : Digest) (ch : List Block) (i : Nat)
    (h1 : 1 ≤ i) (h2 : i < ch.length) :
    blockCheck H ch i = true ↔
      ch[i].hash =
          computeHash H ch[i].index ch[i].timestamp ch[i].data ch[i].previousHash ch[i].nonce
        ∧ ch[i].previousHash = (ch.get ⟨i - 1, by omega⟩).hash := by
  have hi : ch.getD i dummyBlock = ch[i] := List.getD_eq_getElem ch dummyBlock h2
  have hp : ch.getD (i - 1) dummyBlock = ch.get ⟨i - 1, by omega⟩ :=
    List.getD_eq_getElem ch dummyBlock (by omega)
  simp only [blockCheck, hi, hp]
  simp [List.get_eq_getElem]

/-- Chains of length `≤ 1` are always valid (the loop body never runs). -/
lemma isChainValid_short (H : Digest) (ch : List Block) (hlen : ch.length ≤ 1) :
    isChainValid H ch = true := by
  have h0 : ch.length - 1 = 0 := by omega
  simp [isChainValid, h0]

/-- The loop guard fails at nonce state `0` (the `hash` variable still holds
`''`, which does not start with `"00"`), for every digest and every input. -/
lemma minePass_zero (H : Digest) (index timestamp : Nat) (data : BlockData)
    (previousHash : String) : minePass H index timestamp data previousHash 0 = false := rfl

/-- Characterization of `mineBlock`'s value by the least passing nonce. -/
lemma mineBlock_eq (H : Digest) (index timestamp : Nat) (data : BlockData)
    (previousHash : String)
    (h : ∃ n, minePass H index timestamp data previousHash n = true) (n : Nat)
    (hn : minePass H index timestamp data previousHash n = true)
    (hmin : ∀ m, m < n → minePass H index timestamp data previousHash m = false) :
    mineBlock H index timestamp data previousHash h =
      (mineHashAt H index timestamp data previousHash n, n) := by
  have hfind : Nat.find h = n := by
    rw [Nat.find_eq_iff]
    exact ⟨hn, fun m hm => by simp [hmin m hm]⟩
  simp [mineBlock, hfind]

/-- What `mineBlock` returns: a nonce `≥ 1` (zero is never probed), the digest
at that nonce, satisfying the difficulty predicate, and minimal among
nonces `≥ 1`. -/
lemma mineBlock_spec (H : Digest) (index timestamp : Nat) (data : BlockData)
    (previousHash : String)
    (h : ∃ n, minePass H index timestamp data previousHash n = true) :
    1 ≤ (mineBlock H index timestamp data previousHash h).2
    ∧ (mineBlock H index timestamp data previousHash h).1 =
        computeHash H index timestamp data previousHash
          (mineBlock H index timestamp data previousHash h).2
    ∧ strStartsWith (mineBlock H index timestamp data previousHash h).1 DIFFICULTY_ZEROS =
        true
    ∧ ∀ m, 1 ≤ m → m < (mineBlock H index timestamp data previousHash h).2 →
        strStartsWith (computeHash H index timestamp data previousHash m) DIFFICULTY_ZEROS =
          false := by
  have hspec := Nat.find_spec h
  have hpos : 1 ≤ Nat.find h := by
    rcases Nat.eq_zero_or_pos (Nat.find h) with h0 | h0
    · rw [h0, minePass_zero] at hspec
      exact absurd hspec (by simp)
    · exact h0
  have hhash : mineHashAt H index timestamp data previousHash (Nat.find h) =
      computeHash H index timestamp data previousHash (Nat.find h) := by
    have : Nat.find h ≠ 0 := by omega
    simp [mineHashAt, this]
  refine ⟨hpos, ?_, ?_, ?_⟩
  · simpa [mineBlock] using hhash
  · have := hspec
    rw [minePass, hhash] at this
    simpa [mineBlock, hhash] using this
  · intro m hm1 hm2
    simp only [mineBlock] at hm2
    have hnot := Nat.find_min h hm2
    have hm0 : m ≠ 0 := by omega
    rw [minePass, mineHashAt, if_neg hm0] at hnot
    simpa using hnot

/-- Shape of `addBlock`'s result: the sealed block and the appended chain. -/
lemma addBlock_eq (H : Digest) (ch : List Block) (timestamp : Nat) (data : BlockData)
    (h1 : ch ≠ []) (h2 : MineTerm H ch timestamp data h1) :
    addBlock H ch timestamp data h1 h2 =
      (⟨(ch.getLast h1).index + 1, timestamp, data, (ch.getLast h1).hash,
          (mineBlock H ((ch.getLast h1).index + 1) timestamp data (ch.getLast h1).hash h2).1,
          (mineBlock H ((ch.getLast h1).index + 1) timestamp data (ch.getLast h1).hash h2).2⟩,
        ch ++
          [⟨(ch.getLast h1).index + 1, timestamp, data, (ch.getLast h1).hash,
              (mineBlock H ((ch.getLast h1).index + 1) timestamp data (ch.getLast h1).hash
                  h2).1,
              (mineBlock H ((ch.getLast h1).index + 1) timestamp data (ch.getLast h1).hash
                  h2).2⟩]) := rfl

/-- Unfolded form of the in-place data mutation. -/
lemma setBlockData_def (b : Block) (d : BlockData) :
    setBlockData b d = ⟨b.index, b.timestamp, d, b.previousHash, b.hash, b.nonce⟩ := rfl

/-! ## Claim theorems -/

/-- C4 (confirmed): for every candidate chain on which validation fails,
`loadChain` returns `false` and the active chain after the call is exactly the
chain that was active before the call. -/
theorem C4_loadChain_failsafe (H : Digest) (s candidate : List Block)
    (h : isChainValid H candidate = false) :
    loadChain H s candidate = (false, s) := by
  simp [loadChain, h]

/-- Witness for C4: a candidate whose second block's stored `hash` is corrupted
is rejected and leaves the (fresh) active chain in place. -/
theorem C4_loadChain_failsafe_witness :
    isChainValid ridDigest [blockA, blockBad] = false
    ∧ loadChain ridDigest (initChain ridDigest) [blockA, blockBad] =
        (false, initChain ridDigest) :=
  ⟨by decide, C4_loadChain_failsafe ridDigest (initChain ridDigest) [blockA, blockBad]
    (by decide)⟩

/-- C7 (confirmed): loading the exported snapshot of a valid chain returns
`true` and leaves the active chain identical. -/
theorem C7_roundtrip (H : Digest) (s : List Block) (hv : isChainValid H s = true) :
    loadChain H s (getChain s) = (true, s) := by
  simp [loadChain, getChain, hv]

/-- Witness for C7 on a concrete valid two-block chain. -/
theorem C7_roundtrip_witness :
    isChainValid ridDigest [blockA, blockB] = true
    ∧ loadChain ridDigest [blockA, blockB] (getChain [blockA, blockB]) =
        (true, [blockA, blockB]) :=
  ⟨by decide, C7_roundtrip ridDigest [blockA, blockB] (by decide)⟩

/-- C10 (confirmed): `isChainValid` is `true` on every chain of length 0 or 1,
whatever the content of the lone block, so `loadChain` accepts any single-block
candidate and the empty candidate. -/
theorem C10_short_chains_valid (H : Digest) (s ch : List Block)
    (hlen : getLength ch ≤ 1) :
    isChainValid H ch = true ∧ loadChain H s ch = (true, ch) := by
  have hv := isChainValid_short H ch hlen
  exact ⟨hv, by simp [loadChain, hv]⟩

/-- Witness for C10: a junk single block (wrong index, dangling linkage, stored
hash unrelated to any digest) is accepted by `loadChain`. -/
theorem C10_short_chains_valid_witness :
    getLength [blockJunk] ≤ 1
    ∧ isChainValid ridDigest [blockJunk] = true
    ∧ loadChain ridDigest (initChain ridDigest) [blockJunk] = (true, [blockJunk]) := by
  refine ⟨by decide, ?_⟩
  exact C10_short_chains_valid ridDigest (initChain ridDigest) [blockJunk] (by decide)

/-- C8 (corrected): `addBlock` performs neither rejection nor stripping: the
sealed block's `data` is exactly the payload it was given, whatever its
`identity` and `citizenId` fields hold. -/
theorem C8_addBlock_seals_verbatim (H : Digest) (ch : List Block) (timestamp : Nat)
    (data : BlockData) (h1 : ch ≠ []) (h2 : MineTerm H ch timestamp data h1) :
    (addBlock H ch timestamp data h1 h2).1.data = data := rfl

/-- Witness for C8's amended statement at a concrete anonymous payload. -/
theorem C8_addBlock_seals_verbatim_witness :
    (addBlock constDigest (initChain constDigest) 0 anonPayload (by decide)
        ⟨1, by decide⟩).1.data = anonPayload :=
  C8_addBlock_seals_verbatim constDigest (initChain constDigest) 0 anonPayload
    (by decide) ⟨1, by decide⟩

/-- Counterexample to C8 as stated: calling `addBlock` with a payload whose
`identity` is `anonymous` and whose `citizenId` is populated is not rejected
(a block is returned) and the `citizenId` is not stripped — the sealed block
carries it. -/
theorem C8_counterexample :
    (addBlock constDigest (initChain constDigest) 0 anonPayload (by decide)
          ⟨1, by decide⟩).1.data.identity = Identity.anonymous
    ∧ (addBlock constDigest (initChain constDigest) 0 anonPayload (by decide)
          ⟨1, by decide⟩).1.data.citizenId = some "CIT-42" :=
  ⟨rfl, rfl⟩

/-- C5 (corrected): `addBlock` returns a block whose `index` is one greater
than the previous latest block's `index` (not, in general, than the previous
length minus 1) and whose `previousHash` is the previous latest block's
`hash`; the new chain is the old one with exactly the returned block appended,
so the length grows by one, the returned block is the new last element, and no
existing block is modified. -/
theorem C5_append_postconditions (H : Digest) (ch : List Block) (timestamp : Nat)
    (data : BlockData) (h1 : ch ≠ []) (h2 : MineTerm H ch timestamp data h1) :
    (addBlock H ch timestamp data h1 h2).1.index = (ch.getLast h1).index + 1
    ∧ (addBlock H ch timestamp data h1 h2).1.previousHash = (ch.getLast h1).hash
    ∧ (addBlock H ch timestamp data h1 h2).2 =
        ch ++ [(addBlock H ch timestamp data h1 h2).1]
    ∧ getLength (addBlock H ch timestamp data h1 h2).2 = getLength ch + 1
    ∧ getLatestBlock (addBlock H ch timestamp data h1 h2).2 =
        some (addBlock H ch timestamp data h1 h2).1 := by
  refine ⟨rfl, rfl, rfl, ?_, ?_⟩
  · simp [addBlock, getLength]
  · simp [addBlock, getLatestBlock]

/-- Witness for C5 on the fresh chain. -/
theorem C5_append_postconditions_witness :
    (addBlock constDigest (initChain constDigest) 0 samplePayload (by decide)
          ⟨1, by decide⟩).1.index =
        ((initChain constDigest).getLast (by decide)).index + 1
    ∧ (addBlock constDigest (initChain constDigest) 0 samplePayload (by decide)
          ⟨1, by decide⟩).1.previousHash =
        ((initChain constDigest).getLast (by decide)).hash
    ∧ (addBlock constDigest (initChain constDigest) 0 samplePayload (by decide)
          ⟨1, by decide⟩).2 =
        initChain constDigest ++
          [(addBlock constDigest (initChain constDigest) 0 samplePayload (by decide)
              ⟨1, by decide⟩).1]
    ∧ getLength (addBlock constDigest (initChain constDigest) 0 samplePayload (by decide)
          ⟨1, by decide⟩).2 = getLength (initChain constDigest) + 1
    ∧ getLatestBlock (addBlock constDigest (initChain constDigest) 0 samplePayload
          (by decide) ⟨1, by decide⟩).2 =
        some (addBlock constDigest (initChain constDigest) 0 samplePayload (by decide)
            ⟨1, by decide⟩).1 :=
  C5_append_postconditions constDigest (initChain constDigest) 0 samplePayload
    (by decide) ⟨1, by decide⟩

/-- Counterexample to C5 as stated: `loadChain` accepts the single-block
candidate `[blockJunk]` whose block has `index` 5, and `addBlock` on the
resulting state returns a block with `index` 6, not `length − 1 + 1 = 1`. -/
theorem C5_counterexample :
    loadChain constDigest (initChain constDigest) [blockJunk] = (true, [blockJunk])
    ∧ (addBlock constDigest [blockJunk] 0 samplePayload (by decide)
          ⟨1, by decide⟩).1.index = 6
    ∧ getLength [blockJunk] - 1 + 1 = 1 := by
  refine ⟨by decide, rfl, by decide⟩

/-- C3 (corrected): the mining loop pre-increments its nonce, so it probes
nonces `1, 2, 3, …` and never nonce `0`; `mineBlock` returns the digest at the
least nonce `≥ 1` satisfying the difficulty predicate, together with that
nonce. -/
theorem C3_mining_least_positive (H : Digest) (index timestamp : Nat)
    (data : BlockData) (previousHash : String)
    (h : ∃ n, minePass H index timestamp data previousHash n = true) :
    1 ≤ (mineBlock H index timestamp data previousHash h).2
    ∧ (mineBlock H index timestamp data previousHash h).1 =
        computeHash H index timestamp data previousHash
          (mineBlock H index timestamp data previousHash h).2
    ∧ strStartsWith (mineBlock H index timestamp data previousHash h).1 DIFFICULTY_ZEROS =
        true
    ∧ ∀ m, 1 ≤ m → m < (mineBlock H index timestamp data previousHash h).2 →
        strStartsWith (computeHash H index timestamp data previousHash m) DIFFICULTY_ZEROS =
          false :=
  mineBlock_spec H index timestamp data previousHash h

/-- Witness for C3's amended statement at a concrete input. -/
theorem C3_mining_least_positive_witness :
    1 ≤ (mineBlock constDigest 1 0 samplePayload "p" ⟨1, by decide⟩).2
    ∧ (mineBlock constDigest 1 0 samplePayload "p" ⟨1, by decide⟩).1 =
        computeHash constDigest 1 0 samplePayload "p"
          (mineBlock constDigest 1 0 samplePayload "p" ⟨1, by decide⟩).2
    ∧ strStartsWith (mineBlock constDigest 1 0 samplePayload "p" ⟨1, by decide⟩).1
          DIFFICULTY_ZEROS = true
    ∧ ∀ m, 1 ≤ m → m < (mineBlock constDigest 1 0 samplePayload "p" ⟨1, by decide⟩).2 →
        strStartsWith (computeHash constDigest 1 0 samplePayload "p" m) DIFFICULTY_ZEROS =
          false :=
  C3_mining_least_positive constDigest 1 0 samplePayload "p" ⟨1, by decide⟩

/-- Counterexample to C3 as stated: at this input the digest at nonce `0`
already satisfies the difficulty predicate, so the smallest nonce in the search
sequence `0, 1, 2, …` is `0`, yet `mineBlock` returns nonce `1`. -/
theorem C3_counterexample :
    strStartsWith (computeHash constDigest 1 0 samplePayload "p" 0) DIFFICULTY_ZEROS = true
    ∧ mineBlock constDigest 1 0 samplePayload "p" ⟨1, by decide⟩ = ("00", 1) := by
  refine ⟨by decide, ?_⟩
  rw [mineBlock_eq constDigest 1 0 samplePayload "p" _ 1 (by decide) (by decide)]
  rfl

/-- C6 (confirmed): on every chain obtained from `new Blockchain()` by a
sequence of `addBlock` calls, every block of index `≥ 1` has a hash whose
textual prefix is the difficulty string of `MINING_DIFFICULTY = 2` zeros. -/
theorem C6_pow_invariant (H : Digest) (ch : List Block) (hr : ReachAdd H ch) :
    ∀ b ∈ ch, 1 ≤ b.index → strStartsWith b.hash DIFFICULTY_ZEROS = true := by
  induction hr with
  | init =>
    intro b hb hidx
    simp only [initChain, List.mem_singleton] at hb
    subst hb
    exact absurd hidx (by simp [createGenesisBlock])
  | step ch timestamp data h1 h2 _ ih =>
    intro b hb hidx
    rw [addBlock_eq, List.mem_append] at hb
    rcases hb with hb | hb
    · exact ih b hb hidx
    · rw [List.mem_singleton] at hb
      subst hb
      exact (mineBlock_spec H ((ch.getLast h1).index + 1) timestamp data
        (ch.getLast h1).hash h2).2.2.1

/-- Witness for C6: the block appended to the fresh chain satisfies the
difficulty-prefix condition. -/
theorem C6_pow_invariant_witness :
    strStartsWith
        (addBlock constDigest (initChain constDigest) 0 samplePayload (by decide)
            ⟨1, by decide⟩).1.hash
        DIFFICULTY_ZEROS = true :=
  C6_pow_invariant constDigest _
    (ReachAdd.step (initChain constDigest) 0 samplePayload (by decide) ⟨1, by decide⟩
      ReachAdd.init)
    (addBlock constDigest (initChain constDigest) 0 samplePayload (by decide)
      ⟨1, by decide⟩).1
    (by simp [addBlock_eq]) (by decide)

/-- C2 (corrected): after construction and any sequence of `addBlock` calls and
`loadChain` calls with *nonempty* candidate arguments, the chain contains at
least one block and `getLatestBlock` returns an actual block. -/
theorem C2_never_empty (H : Digest) (ch : List Block) (hr : ReachNE H ch) :
    ch ≠ [] ∧ (getLatestBlock ch).isSome = true := by
  have hne : ch ≠ [] := by
    induction hr with
    | init => simp [initChain]
    | step ch timestamp data h1 h2 _ _ => rw [addBlock_eq]; simp
    | load ch candidate hne _ ih =>
      rw [loadChain]
      split
      · exact hne
      · exact ih
  exact ⟨hne, by simp [getLatestBlock, List.getLast?_isSome, hne]⟩

/-- Witness for C2's amended statement after a concrete nonempty load. -/
theorem C2_never_empty_witness :
    (loadChain constDigest (initChain constDigest) [blockJunk]).2 ≠ []
    ∧ (getLatestBlock (loadChain constDigest (initChain constDigest) [blockJunk]).2).isSome =
        true :=
  C2_never_empty constDigest _
    (ReachNE.load (initChain constDigest) [blockJunk] (by decide) ReachNE.init)

/-- Counterexample to C2 as stated: `loadChain` called with the empty candidate
succeeds and leaves the chain empty, after which `getLatestBlock` has no block
to return (the source expression `this.chain[this.chain.length - 1]` is
`undefined`). -/
theorem C2_counterexample :
    loadChain constDigest (initChain constDigest) [] = (true, [])
    ∧ getLatestBlock ([] : List Block) = none
    ∧ getLength ([] : List Block) = 0 :=
  ⟨by decide, rfl, rfl⟩

/-- C1 (corrected): in a valid chain, replacing the `data` of the block at any
position `i ≥ 1` by a payload whose sealing digest differs from the original
block's sealing digest (as SHA-256 collision resistance guarantees for any
actual change), without touching its `hash` or `nonce`, makes `isChainValid`
return `false`.  Positions `i = 0` are excluded: the loop never recomputes the
genesis block's hash (see the counterexample). -/
theorem C1_tamper_detection_nongenesis (H : Digest) (ch : List Block) (i : Nat)
    (d' : BlockData) (h1 : 1 ≤ i) (h2 : i < ch.length)
    (hvalid : isChainValid H ch = true)
    (hcol :
      H ⟨(ch.get ⟨i, h2⟩).index, (ch.get ⟨i, h2⟩).timestamp, d',
          (ch.get ⟨i, h2⟩).previousHash, (ch.get ⟨i, h2⟩).nonce⟩ ≠
        H ⟨(ch.get ⟨i, h2⟩).index, (ch.get ⟨i, h2⟩).timestamp, (ch.get ⟨i, h2⟩).data,
          (ch.get ⟨i, h2⟩).previousHash, (ch.get ⟨i, h2⟩).nonce⟩) :
    isChainValid H (ch.set i (setBlockData (ch.get ⟨i, h2⟩) d')) = false := by
  have hcheck := (blockCheck_eq_true_iff H ch i h1 h2).mp
    ((isChainValid_eq_true_iff H ch).mp hvalid i h1 h2)
  have hstored : (ch.get ⟨i, h2⟩).hash =
      H ⟨(ch.get ⟨i, h2⟩).index, (ch.get ⟨i, h2⟩).timestamp, (ch.get ⟨i, h2⟩).data,
        (ch.get ⟨i, h2⟩).previousHash, (ch.get ⟨i, h2⟩).nonce⟩ := by
    have h := hcheck.1
    simpa [computeHash, List.get_eq_getElem] using h
  have hlen : (ch.set i (setBlockData (ch.get ⟨i, h2⟩) d')).length = ch.length :=
    List.length_set ch i _
  have hi' : i < (ch.set i (setBlockData (ch.get ⟨i, h2⟩) d')).length := by omega
  refine isChainValid_eq_false_of H _ i h1 hi' ?_
  cases hb : blockCheck H (ch.set i (setBlockData (ch.get ⟨i, h2⟩) d')) i with
  | false => rfl
  | true =>
    exfalso
    have hcc := (blockCheck_eq_true_iff H _ i h1 hi').mp hb
    have hge : (ch.set i (setBlockData (ch.get ⟨i, h2⟩) d'))[i] =
        setBlockData (ch.get ⟨i, h2⟩) d' := List.getElem_set_self hi'
    have hmut := hcc.1
    rw [hge] at hmut
    simp only [setBlockData_def] at hmut
    rw [hstored] at hmut
    exact hcol (by simpa [computeHash] using hmut.symm)

/-- Witness for C1's amended statement: mutating block 1's data in a valid
two-block chain is detected. -/
theorem C1_tamper_detection_nongenesis_witness :
    isChainValid ridDigest [blockA, blockB] = true
    ∧ isChainValid ridDigest
        ([blockA, blockB].set 1
          (setBlockData ([blockA, blockB].get ⟨1, by decide⟩) dataC)) = false :=
  ⟨by decide,
    C1_tamper_detection_nongenesis ridDigest [blockA, blockB] 1 dataC (by decide)
      (by decide) (by decide) (by decide)⟩

/-- Counterexample to C1 as stated: the fresh one-block chain is valid, and
mutating the genesis block's `data` (index 0) — a mutation whose recomputed
digest genuinely differs from the stored genesis hash — leaves `isChainValid`
returning `true`, because the validation loop starts at index 1 and never
recomputes the genesis block's hash. -/
theorem C1_counterexample :
    isChainValid ridDigest (initChain ridDigest) = true
    ∧ computeHash ridDigest 0 genesisTimestamp tamperedGenesisData "0000000000000000" 0 ≠
        (createGenesisBlock ridDigest).hash
    ∧ isChainValid ridDigest
        ((initChain ridDigest).set 0
          (setBlockData (createGenesisBlock ridDigest) tamperedGenesisData)) = true :=
  ⟨by decide, by decide, by decide⟩

end Jaagruk
